import Mathlib

set_option autoImplicit false

/-
Verification of the CARLS knowledge-bank service and its client-side
dynamic-embedding batch manager.

The server side is a shallow embedding of
research/carls/knowledge_bank_grpc_service.cc: the handler state (the
handle-to-store and handle-to-optimizer maps) is threaded explicitly, the
proto maps of a request are association lists in iteration order, and C++
float vectors are modelled as exact rationals.

External collaborators whose implementation is not part of the verified
source (the EmbeddingStore backend, the SGD optimizer, and the client-side
DynamicEmbeddingManager) are modelled from the specification; each such
definition carries a doc comment saying so.
-/

attribute [local semireducible] Rat.mul Rat.sub Rat.add

deriving instance DecidableEq for Except

namespace Carls

/-- Embedding vectors: C++ float sequences modelled as exact rationals. -/
abbrev Vec := List Rat

/-- The all-zero vector of a given dimension. -/
def zeroVec (d : Nat) : Vec := List.replicate d 0

/-- The subset of grpc status codes used by the service. -/
inductive StatusCode where
  | ok
  | invalidArgument
  | internal
deriving DecidableEq

/-- A grpc status: a code together with a message. -/
structure Status where
  code : StatusCode
  message : String
deriving DecidableEq

/-- Status::OK. -/
def statusOK : Status := ⟨StatusCode.ok, ""⟩

/-- A Status with code INVALID_ARGUMENT. -/
def invalidStatus (m : String) : Status := ⟨StatusCode.invalidArgument, m⟩

/-- A Status with code INTERNAL. -/
def internalStatus (m : String) : Status := ⟨StatusCode.internal, m⟩

/-- The knowledge-bank configuration proto: the fields the verified code
inspects are the presence of a zero initial-value policy and the presence of
the in-proto backend extension (the backend selection). -/
structure KnowledgeBankConfig where
  has_zero_init : Bool
  has_in_proto_extension : Bool
deriving DecidableEq

/-- The gradient-descent configuration proto: a learning rate and whether the
sgd algorithm variant is selected. -/
structure GradientDescentConfig where
  learning_rate : Rat
  has_sgd : Bool
deriving DecidableEq

/-- DynamicEmbeddingConfig: embedding dimension, knowledge-bank configuration,
and an optional gradient-descent configuration. -/
structure DynamicEmbeddingConfig where
  embedding_dimension : Nat
  knowledge_bank_config : KnowledgeBankConfig
  gradient_descent_config : Option GradientDescentConfig
deriving DecidableEq

/-- The all-default DynamicEmbeddingConfig (proto3 default instance). -/
def emptyDynamicEmbeddingConfig : DynamicEmbeddingConfig :=
  ⟨0, ⟨false, false⟩, none⟩

/-- A StartSessionRequest: a session name and a configuration. -/
structure StartSessionRequest where
  name : String
  config : DynamicEmbeddingConfig
deriving DecidableEq

/-- The all-default StartSessionRequest. -/
def emptySessionRequest : StartSessionRequest :=
  ⟨"", emptyDynamicEmbeddingConfig⟩

/-- Session handles are the serialized request bytes; proto3 serialization of
a message is deterministic here and is the empty byte string exactly for the
all-default message. Handles are therefore modelled as the parsed request
itself, and the C++ check session_handle.empty() becomes equality with the
all-default request. -/
def StartSessionRequest.isEmptyHandle (r : StartSessionRequest) : Bool :=
  decide (r = emptySessionRequest)

/-- Association-list lookup: first binding of the key, if any. -/
def assocFind {α β : Type} [DecidableEq α] (k : α) : List (α × β) → Option β
  | [] => none
  | (k', v) :: rest => if k' = k then some v else assocFind k rest

/-- Association-list insert-or-overwrite: replaces the first binding of the
key, or appends a new binding. -/
def assocUpsert {α β : Type} [DecidableEq α] (k : α) (v : β) :
    List (α × β) → List (α × β)
  | [] => [(k, v)]
  | (k', v') :: rest =>
    if k' = k then (k, v) :: rest else (k', v') :: assocUpsert k v rest

/-- Modelled from the spec: the EmbeddingStore collaborator (the knowledge
bank backend, not part of the source under verification). A per-session
key-to-vector container with a fixed embedding dimension; missing keys are
created zero-valued by the lookup-with-update read, and the empty-string key
is a reserved padding sentinel that is never written and whose per-key reads
fail. -/
structure EmbeddingStore where
  dim : Nat
  table : List (String × Vec)
deriving DecidableEq

/-- Modelled from the spec: a single pure read; a per-key success-or-error
result. Reads of the empty key and of absent keys fail. -/
def EmbeddingStore.lookupOne (st : EmbeddingStore) (k : String) :
    Sum Vec String :=
  if k = "" then Sum.inr "Input key is empty."
  else
    match assocFind k st.table with
    | some v => Sum.inl v
    | none => Sum.inr ("Key not found: " ++ k)

/-- Modelled from the spec: the pure batched read; one result per key. -/
def EmbeddingStore.batchLookup (st : EmbeddingStore) (keys : List String) :
    List (Sum Vec String) :=
  keys.map st.lookupOne

/-- Modelled from the spec: a single read that creates an absent key with the
zero vector of the configured dimension; the empty padding key is never
created and its read fails. -/
def EmbeddingStore.lookupWithUpdateOne (st : EmbeddingStore) (k : String) :
    Sum Vec String × EmbeddingStore :=
  if k = "" then (Sum.inr "Input key is empty.", st)
  else
    match assocFind k st.table with
    | some v => (Sum.inl v, st)
    | none =>
      (Sum.inl (zeroVec st.dim),
        { st with table := assocUpsert k (zeroVec st.dim) st.table })

/-- Modelled from the spec: the batched create-on-miss read, processing the
keys left to right while threading the store. -/
def EmbeddingStore.batchLookupWithUpdate (st : EmbeddingStore) :
    List String → List (Sum Vec String) × EmbeddingStore
  | [] => ([], st)
  | k :: rest =>
    let p := st.lookupWithUpdateOne k
    let q := p.2.batchLookupWithUpdate rest
    (p.1 :: q.1, q.2)

/-- Modelled from the spec: a single overwrite; the empty padding key is
never written. -/
def EmbeddingStore.updateOne (st : EmbeddingStore) (k : String) (v : Vec) :
    EmbeddingStore :=
  if k = "" then st else { st with table := assocUpsert k v st.table }

/-- Modelled from the spec: the batched overwrite, pairing keys with values
positionally. -/
def EmbeddingStore.batchUpdate (st : EmbeddingStore) :
    List String → List Vec → EmbeddingStore
  | k :: ks, v :: vs => ((st.updateOne k v).batchUpdate ks vs)
  | _, _ => st

/-- Modelled from the spec: the SGD optimizer collaborator. -/
structure GradientDescentOptimizer where
  dim : Nat
  learning_rate : Rat
deriving DecidableEq

/-- One SGD step on one vector: e - lr * g, componentwise. -/
def sgdStep (lr : Rat) (e g : Vec) : Vec :=
  List.zipWith (fun a b => a - lr * b) e g

/-- Modelled from the spec: Apply pairs current vector i with gradient i and
returns the updated batch, or an empty batch with a descriptive message on
failure; an empty input batch is the failure the service checks for. -/
def GradientDescentOptimizer.apply (opt : GradientDescentOptimizer)
    (embeddings : List Vec) (gradients : List Vec) : List Vec × String :=
  if embeddings = [] then ([], "No input embeddings.")
  else (List.zipWith (sgdStep opt.learning_rate) embeddings gradients, "")

/-- Modelled from the spec: KnowledgeBankFactory.Make builds the backend
store from the knowledge-bank configuration and the embedding dimension; it
fails (nullptr) when the configuration selects no backend. -/
def KnowledgeBankFactory.make (cfg : KnowledgeBankConfig) (dim : Nat) :
    Option EmbeddingStore :=
  if cfg.has_in_proto_extension then some ⟨dim, []⟩ else none

/-- Modelled from the spec: GradientDescentOptimizer.Create fails (nullptr)
when no algorithm such as sgd is selected in the configuration. -/
def GradientDescentOptimizer.create (dim : Nat) (cfg : GradientDescentConfig) :
    Option GradientDescentOptimizer :=
  if cfg.has_sgd then some ⟨dim, cfg.learning_rate⟩ else none

/-- The service state: the handle-to-store map es_map and the
handle-to-optimizer map gd_map of KnowledgeBankGrpcServiceImpl. -/
structure KnowledgeBankService where
  es_map : List (StartSessionRequest × EmbeddingStore)
  gd_map : List (StartSessionRequest × GradientDescentOptimizer)
deriving DecidableEq

/-- The freshly constructed service: both maps empty. -/
def emptyService : KnowledgeBankService := ⟨[], []⟩

/-- es_map_.contains(session_handle). -/
def KnowledgeBankService.containsES (s : KnowledgeBankService)
    (h : StartSessionRequest) : Bool :=
  (assocFind h s.es_map).isSome

/-- gd_map_.contains(session_handle). -/
def KnowledgeBankService.containsGD (s : KnowledgeBankService)
    (h : StartSessionRequest) : Bool :=
  (assocFind h s.gd_map).isSome

/-- es_map_[session_handle]: by the time the handlers index the map the
session exists, so the default store is never reached. -/
def KnowledgeBankService.getStore (s : KnowledgeBankService)
    (h : StartSessionRequest) : EmbeddingStore :=
  (assocFind h s.es_map).getD ⟨0, []⟩

/-- Writing back the (internally mutated) store of a session. -/
def KnowledgeBankService.setStore (s : KnowledgeBankService)
    (h : StartSessionRequest) (st : EmbeddingStore) : KnowledgeBankService :=
  { s with es_map := assocUpsert h st s.es_map }

/-- gd_map_[session_handle]; defaulted like getStore, never reached. -/
def KnowledgeBankService.getGD (s : KnowledgeBankService)
    (h : StartSessionRequest) : GradientDescentOptimizer :=
  (assocFind h s.gd_map).getD ⟨0, 0⟩

/-- The second half of KnowledgeBankGrpcServiceImpl::StartSessionIfNecessary:
when the request carries a gradient-descent configuration and no optimizer
exists yet for the handle, construct one; construction failure is an internal
error, returned after any store created by the first half has already been
installed. -/
def KnowledgeBankService.ensureOptimizer (s1 : KnowledgeBankService)
    (handle : StartSessionRequest) : KnowledgeBankService × Status :=
  match handle.config.gradient_descent_config with
  | none => (s1, statusOK)
  | some gdc =>
    if s1.containsGD handle then (s1, statusOK)
    else
      match GradientDescentOptimizer.create
          handle.config.embedding_dimension gdc with
      | none => (s1, internalStatus "Creating GradientDescentOptimizer failed.")
      | some opt =>
        ({ s1 with gd_map := assocUpsert handle opt s1.gd_map }, statusOK)

/-- KnowledgeBankGrpcServiceImpl::StartSessionIfNecessary: parse the handle
back into the originating request (handles being modelled as the parsed
request, the parse is the identity); create the store if absent, failing with
an internal error when the factory fails; then run the optimizer half. -/
def KnowledgeBankService.startSessionIfNecessary (s : KnowledgeBankService)
    (handle : StartSessionRequest) : KnowledgeBankService × Status :=
  if s.containsES handle then s.ensureOptimizer handle
  else
    match KnowledgeBankFactory.make handle.config.knowledge_bank_config
        handle.config.embedding_dimension with
    | none => (s, internalStatus "Creating KnowledgeBank failed.")
    | some kb =>
      ({ s with es_map := assocUpsert handle kb s.es_map }).ensureOptimizer handle

/-- KnowledgeBankGrpcServiceImpl::StartSession: reject an empty name, use the
serialized request as the handle, ensure the session exists, and return the
handle on success. -/
def KnowledgeBankService.startSession (s : KnowledgeBankService)
    (request : StartSessionRequest) :
    KnowledgeBankService × Status × Option StartSessionRequest :=
  if request.name = "" then (s, invalidStatus "Name is empty.", none)
  else
    let handle := request
    let p := s.startSessionIfNecessary handle
    if p.2.code = StatusCode.ok then (p.1, statusOK, some handle)
    else (p.1, p.2, none)

/-- A Lookup request: handle, keys, and the update flag. -/
structure LookupRequest where
  session_handle : StartSessionRequest
  key : List String
  update : Bool

/-- The valid (key, vector) pairs of a batch read: the keys whose per-key
result is a vector, paired with that vector, in original key order. This is
the loop the Lookup handler uses to build its response table and the Update
gradient branch uses to build valid_keys and embeddings. -/
def validPairs (keys : List String) (value_or_errors : List (Sum Vec String)) :
    List (String × Vec) :=
  (keys.zip value_or_errors).filterMap fun kr =>
    match kr.2 with
    | Sum.inl v => some (kr.1, v)
    | Sum.inr _ => none

/-- The tail of the Lookup handler: escalate a result-count mismatch from the
store to an internal error, otherwise assemble the response table from the
successful per-key results, silently dropping the failed keys. -/
def lookupAssemble (keys : List String)
    (value_or_errors : List (Sum Vec String)) :
    Status × List (String × Vec) :=
  if value_or_errors.length ≠ keys.length then
    (internalStatus "Inconsistent result returned by BatchLookup()", [])
  else (statusOK, validPairs keys value_or_errors)

/-- KnowledgeBankGrpcServiceImpl::Lookup. -/
def KnowledgeBankService.lookup (s : KnowledgeBankService)
    (request : LookupRequest) :
    KnowledgeBankService × Status × List (String × Vec) :=
  if request.session_handle.isEmptyHandle then
    (s, invalidStatus "session_handle is empty.", [])
  else if request.key = [] then
    (s, invalidStatus "Empty input keys.", [])
  else
    let p := s.startSessionIfNecessary request.session_handle
    if p.2.code ≠ StatusCode.ok then (p.1, p.2, [])
    else
      if request.update then
        let q := (p.1.getStore request.session_handle).batchLookupWithUpdate
          request.key
        let r := lookupAssemble request.key q.1
        (p.1.setStore request.session_handle q.2, r.1, r.2)
      else
        let voe := (p.1.getStore request.session_handle).batchLookup request.key
        let r := lookupAssemble request.key voe
        (p.1, r.1, r.2)

/-- An Update request: handle plus the values and gradients proto maps, as
association lists in iteration order. -/
structure UpdateRequest where
  session_handle : StartSessionRequest
  values : List (String × Vec)
  gradients : List (String × Vec)

/-- The gradient branch of KnowledgeBankGrpcServiceImpl::Update: require an
optimizer; batch-read the current vectors of all gradient keys; escalate a
result-count mismatch; keep only the valid keys and their vectors; fail when
no valid key survived; call Apply with the valid current vectors and the full
original gradient list; fail when Apply returned an empty batch; write the
returned vectors back keyed by the valid keys. -/
def KnowledgeBankService.gradientBranch (s2 : KnowledgeBankService)
    (handle : StartSessionRequest) (gradientPairs : List (String × Vec)) :
    KnowledgeBankService × Status :=
  if ¬ s2.containsGD handle then
    (s2, internalStatus "Optimizer is not created, did you forget to add gradient_descent_config in DynamicEmbeddingConfig?")
  else
    let keys := gradientPairs.map Prod.fst
    let gradients := gradientPairs.map Prod.snd
    let value_or_errors := (s2.getStore handle).batchLookup keys
    if value_or_errors.length ≠ keys.length then
      (s2, internalStatus "Inconsistent result returned by BatchLookup()")
    else
      let vp := validPairs keys value_or_errors
      if vp.map Prod.fst = [] then
        (s2, internalStatus "No valid keys for gradient update.")
      else
        let applied := (s2.getGD handle).apply (vp.map Prod.snd) gradients
        if applied.1 = [] then
          (s2, internalStatus ("Applying gradient update returned error: " ++ applied.2))
        else
          (s2.setStore handle
            ((s2.getStore handle).batchUpdate (vp.map Prod.fst) applied.1),
            statusOK)

/-- KnowledgeBankGrpcServiceImpl::Update: validate the handle and that at
least one of the two maps is non-empty, ensure the session, apply the values
branch (unconditional batch overwrite), then the gradient branch. -/
def KnowledgeBankService.update (s : KnowledgeBankService)
    (request : UpdateRequest) : KnowledgeBankService × Status :=
  if request.session_handle.isEmptyHandle then
    (s, invalidStatus "session_handle is empty.")
  else if request.values = [] ∧ request.gradients = [] then
    (s, invalidStatus "input is empty.")
  else
    let p := s.startSessionIfNecessary request.session_handle
    if p.2.code ≠ StatusCode.ok then (p.1, p.2)
    else
      let s2 :=
        if request.values = [] then p.1
        else
          p.1.setStore request.session_handle
            ((p.1.getStore request.session_handle).batchUpdate
              (request.values.map Prod.fst) (request.values.map Prod.snd))
      if request.gradients = [] then (s2, statusOK)
      else s2.gradientBranch request.session_handle request.gradients

/-- KnowledgeBankGrpcServiceImpl::KnowledgeBankSize: the number of sessions
in es_map. -/
def KnowledgeBankService.knowledgeBankSize (s : KnowledgeBankService) : Nat :=
  s.es_map.length

/-- A string tensor: a shape and the row-major flat data. -/
structure StrTensor where
  shape : List Nat
  data : List String
deriving DecidableEq

/-- A float tensor (modelled over exact rationals): a shape and the row-major
flat data. -/
structure NumTensor where
  shape : List Nat
  data : List Rat
deriving DecidableEq

/-- Tensor::NumElements of a shape. -/
def numElements (shape : List Nat) : Nat := shape.prod

/-- The outer (non-trailing) element count of a shape. -/
def outerCount (shape : List Nat) : Nat := shape.dropLast.prod

/-- The trailing-axis length of a shape. -/
def lastDim (shape : List Nat) : Nat := shape.getLastD 0

/-- Row-major reshaping of flat data into n rows of d entries each. -/
def chunks {α : Type} (d n : Nat) (l : List α) : List (List α) :=
  (List.range n).map fun i => (l.drop (i * d)).take d

/-- Modelled from the spec: the DynamicEmbeddingManager (client-side batch
manager, not part of the source under verification). It caches the
configuration, the session name and the session handle obtained from one
StartSession call, and talks to one knowledge-bank service, whose state it
threads here explicitly in place of the RPC channel. -/
structure DynamicEmbeddingManager where
  config : DynamicEmbeddingConfig
  session_name : String
  service : KnowledgeBankService
  session_handle : StartSessionRequest
deriving DecidableEq

/-- Modelled from the spec: DynamicEmbeddingManager::Create validates the
address and the configuration (non-zero embedding dimension, a backend
selection present), then performs one StartSession call, caching the returned
handle; on any failure it returns none. -/
def DynamicEmbeddingManager.create (config : DynamicEmbeddingConfig)
    (session_name : String) (kbs_address : String)
    (server : KnowledgeBankService) : Option DynamicEmbeddingManager :=
  if kbs_address = "" then none
  else if config.embedding_dimension = 0 then none
  else if ¬ config.knowledge_bank_config.has_in_proto_extension then none
  else
    let p := server.startSession ⟨session_name, config⟩
    match p.2.2 with
    | none => none
    | some h => some ⟨config, session_name, p.1, h⟩

/-- The per-key output rows of a manager lookup: the resolved vector of each
key, and the all-zero vector of the configured dimension for any key with no
resolved vector. -/
def lookupRows (table : List (String × Vec)) (d : Nat)
    (keys : List String) : List Vec :=
  keys.map fun k => (assocFind k table).getD (zeroVec d)

/-- Modelled from the spec: DynamicEmbeddingManager::Lookup flattens the key
batch, issues one Lookup RPC, and scatters the results back, giving every
unresolved key the all-zero vector; the output shape is the key shape with an
appended embedding-dimension axis. -/
def DynamicEmbeddingManager.lookup (m : DynamicEmbeddingManager)
    (keys : StrTensor) (update : Bool) :
    Except String (DynamicEmbeddingManager × NumTensor) :=
  if numElements keys.shape = 0 then Except.error "No input."
  else
    let p := m.service.lookup ⟨m.session_handle, keys.data, update⟩
    if p.2.1.code ≠ StatusCode.ok then Except.error p.2.1.message
    else
      let d := m.config.embedding_dimension
      Except.ok ({ m with service := p.1 },
        ⟨keys.shape ++ [d], (lookupRows p.2.2 d keys.data).flatten⟩)

/-- Modelled from the spec: the shared shape validation of UpdateValues and
UpdateGradients, with the literal error message of each condition; on success
the (key, row) map with the empty-string padding keys omitted. -/
def DynamicEmbeddingManager.checkedPairs (m : DynamicEmbeddingManager)
    (keys : StrTensor) (values : NumTensor) :
    Except String (List (String × Vec)) :=
  if numElements keys.shape = 0 then Except.error "Input key is empty."
  else if numElements keys.shape ≠ outerCount values.shape then
    Except.error ("Inconsistent keys size and values size: "
      ++ toString (numElements keys.shape) ++ " v.s. "
      ++ toString (outerCount values.shape))
  else if lastDim values.shape ≠ m.config.embedding_dimension then
    Except.error ("Inconsistent embedding dimension, got "
      ++ toString (lastDim values.shape) ++ " expect "
      ++ toString m.config.embedding_dimension)
  else
    Except.ok ((keys.data.zip (chunks m.config.embedding_dimension
      (numElements keys.shape) values.data)).filter fun kv => kv.1 != "")

/-- Modelled from the spec: DynamicEmbeddingManager::UpdateValues validates
the shapes, builds the key-to-vector map omitting empty-string padding keys,
and issues one Update RPC with values populated. -/
def DynamicEmbeddingManager.updateValues (m : DynamicEmbeddingManager)
    (keys : StrTensor) (values : NumTensor) :
    Except String DynamicEmbeddingManager :=
  match m.checkedPairs keys values with
  | Except.error e => Except.error e
  | Except.ok pairs =>
    let p := m.service.update ⟨m.session_handle, pairs, []⟩
    if p.2.code = StatusCode.ok then Except.ok { m with service := p.1 }
    else Except.error p.2.message

/-- Modelled from the spec: DynamicEmbeddingManager::UpdateGradients performs
the identical shape validation and issues one Update RPC with gradients
populated, with the same empty-key omission rule. -/
def DynamicEmbeddingManager.updateGradients (m : DynamicEmbeddingManager)
    (keys : StrTensor) (grads : NumTensor) :
    Except String DynamicEmbeddingManager :=
  match m.checkedPairs keys grads with
  | Except.error e => Except.error e
  | Except.ok pairs =>
    let p := m.service.update ⟨m.session_handle, [], pairs⟩
    if p.2.code = StatusCode.ok then Except.ok { m with service := p.1 }
    else Except.error p.2.message

/-- The file system the snapshot contract is stated over: a map from paths to
serialized store snapshots. -/
abbrev FileSystem := List (String × EmbeddingStore)

/-- Path concatenation with a single separator. -/
def joinPath (a b : String) : String := a ++ "/" ++ b

/-- Modelled from the spec: Export delegates to the backing store
serialization, writing a snapshot of the session store to the deterministic
path directory/name/embedding_store_meta_data.pbtxt and returning that
path. -/
def DynamicEmbeddingManager.exportStore (m : DynamicEmbeddingManager)
    (fs : FileSystem) (directory : String) : String × FileSystem :=
  let path :=
    joinPath directory (joinPath m.session_name "embedding_store_meta_data.pbtxt")
  (path, assocUpsert path (m.service.getStore m.session_handle) fs)

/-- Modelled from the spec: Import fully replaces the session store state
from the snapshot at the given path, not incrementally; it fails when no
snapshot exists there. -/
def DynamicEmbeddingManager.importStore (m : DynamicEmbeddingManager)
    (fs : FileSystem) (path : String) :
    Except String DynamicEmbeddingManager :=
  match assocFind path fs with
  | none => Except.error ("File not found: " ++ path)
  | some st =>
    Except.ok { m with service := m.service.setStore m.session_handle st }

/-! Helper lemmas about association lists. -/

theorem assocFind_upsert_self {α β : Type} [DecidableEq α] (k : α) (v : β)
    (l : List (α × β)) : assocFind k (assocUpsert k v l) = some v := by
  induction l with
  | nil => simp [assocFind, assocUpsert]
  | cons p rest ih =>
    by_cases hk : p.1 = k
    · simp [assocFind, assocUpsert, hk]
    · simpa [assocFind, assocUpsert, hk] using ih

theorem assocFind_upsert_ne {α β : Type} [DecidableEq α] {k k' : α} (v : β)
    (l : List (α × β)) (h : k ≠ k') :
    assocFind k' (assocUpsert k v l) = assocFind k' l := by
  induction l with
  | nil => simp [assocFind, assocUpsert, h]
  | cons p rest ih =>
    by_cases hk : p.1 = k
    · simp [assocFind, assocUpsert, hk, h]
    · simp [assocFind, assocUpsert, hk, ih]

theorem assocUpsert_length_of_none {α β : Type} [DecidableEq α] {k : α}
    (v : β) {l : List (α × β)} (h : assocFind k l = none) :
    (assocUpsert k v l).length = l.length + 1 := by
  induction l with
  | nil => simp [assocUpsert]
  | cons p rest ih =>
    by_cases hk : p.1 = k
    · simp [assocFind, hk] at h
    · simp only [assocFind, hk, if_false] at h
      simp [assocUpsert, hk, ih h]

/-! Helper lemmas about validPairs. -/

theorem validPairs_nil (voe : List (Sum Vec String)) :
    validPairs [] voe = [] := by
  simp [validPairs]

theorem validPairs_cons_inl (k : String) (ks : List String) (v : Vec)
    (rs : List (Sum Vec String)) :
    validPairs (k :: ks) (Sum.inl v :: rs) = (k, v) :: validPairs ks rs := by
  simp [validPairs]

theorem validPairs_cons_inr (k : String) (ks : List String) (e : String)
    (rs : List (Sum Vec String)) :
    validPairs (k :: ks) (Sum.inr e :: rs) = validPairs ks rs := by
  simp [validPairs]

theorem validPairs_length_le (keys : List String)
    (voe : List (Sum Vec String)) :
    (validPairs keys voe).length ≤ keys.length := by
  induction keys generalizing voe with
  | nil => simp [validPairs]
  | cons k ks ih =>
    cases voe with
    | nil => simp [validPairs]
    | cons r rs =>
      cases r with
      | inl v =>
        rw [validPairs_cons_inl]
        simpa using ih rs
      | inr e =>
        rw [validPairs_cons_inr]
        exact Nat.le_succ_of_le (ih rs)

theorem validPairs_length_lt (keys : List String)
    (voe : List (Sum Vec String)) (hlen : voe.length = keys.length)
    (hex : ∃ r ∈ voe, ∃ e, r = Sum.inr e) :
    (validPairs keys voe).length < keys.length := by
  induction keys generalizing voe with
  | nil =>
    cases voe with
    | nil => simp at hex
    | cons r rs => simp at hlen
  | cons k ks ih =>
    cases voe with
    | nil => simp at hlen
    | cons r rs =>
      simp only [List.length_cons, Nat.succ.injEq] at hlen
      cases r with
      | inl v =>
        rw [validPairs_cons_inl]
        simp only [List.length_cons, Nat.succ_lt_succ_iff]
        rcases hex with ⟨r, hr, e, he⟩
        rcases List.mem_cons.mp hr with h1 | h2
        · rw [he] at h1; cases h1
        · exact ih rs hlen ⟨r, h2, e, he⟩
      | inr e =>
        rw [validPairs_cons_inr]
        calc (validPairs ks rs).length ≤ ks.length := validPairs_length_le ks rs
          _ < ks.length + 1 := Nat.lt_succ_self _

theorem validPairs_mem_iff (keys : List String)
    (voe : List (Sum Vec String)) (k : String) (v : Vec) :
    (k, v) ∈ validPairs keys voe ↔ (k, Sum.inl v) ∈ keys.zip voe := by
  unfold validPairs
  rw [List.mem_filterMap]
  constructor
  · rintro ⟨⟨k', r⟩, hmem, hf⟩
    cases r with
    | inl v' =>
      simp only [Prod.mk.injEq, Option.some.injEq] at hf
      rcases hf with ⟨h1, h2⟩
      rw [← h1, ← h2]
      exact hmem
    | inr e => simp at hf
  · intro hmem
    exact ⟨(k, Sum.inl v), hmem, rfl⟩

theorem validPairs_fst_sublist (keys : List String)
    (voe : List (Sum Vec String)) :
    ((validPairs keys voe).map Prod.fst).Sublist keys := by
  induction keys generalizing voe with
  | nil => simp [validPairs]
  | cons k ks ih =>
    cases voe with
    | nil => simp [validPairs]
    | cons r rs =>
      cases r with
      | inl v =>
        rw [validPairs_cons_inl]
        simpa using List.Sublist.cons₂ k (ih rs)
      | inr e =>
        rw [validPairs_cons_inr]
        exact List.Sublist.cons k (ih rs)

theorem mem_zip_map_self {α β : Type} (f : α → β) (l : List α) (a : α) (b : β)
    (h : (a, b) ∈ l.zip (l.map f)) : b = f a := by
  induction l with
  | nil => simp at h
  | cons x xs ih =>
    simp only [List.map_cons, List.zip_cons_cons, List.mem_cons] at h
    rcases h with h1 | h2
    · rcases Prod.mk.injEq .. ▸ h1 with ⟨h1a, h1b⟩
      rw [h1b, h1a]
    · exact ih h2

theorem validPairs_batchLookup_mem {st : EmbeddingStore} {keys : List String}
    {kv : String × Vec} (h : kv ∈ validPairs keys (st.batchLookup keys)) :
    st.lookupOne kv.1 = Sum.inl kv.2 := by
  rcases kv with ⟨k, v⟩
  rw [validPairs_mem_iff] at h
  exact (mem_zip_map_self st.lookupOne keys k (Sum.inl v) h).symm

/-! Status shape lemmas for the handlers. -/

theorem ensureOptimizer_status (s1 : KnowledgeBankService)
    (h : StartSessionRequest) :
    (s1.ensureOptimizer h).2 = statusOK ∨
      (s1.ensureOptimizer h).2.code = StatusCode.internal := by
  unfold KnowledgeBankService.ensureOptimizer
  split
  · left; rfl
  · split
    · left; rfl
    · split
      · right; rfl
      · left; rfl

theorem startSessionIfNecessary_status (s : KnowledgeBankService)
    (h : StartSessionRequest) :
    (s.startSessionIfNecessary h).2 = statusOK ∨
      (s.startSessionIfNecessary h).2.code = StatusCode.internal := by
  unfold KnowledgeBankService.startSessionIfNecessary
  split
  · exact ensureOptimizer_status s h
  · split
    · right; rfl
    · exact ensureOptimizer_status _ h

theorem gradientBranch_status (s2 : KnowledgeBankService)
    (h : StartSessionRequest) (g : List (String × Vec)) :
    (s2.gradientBranch h g).2 = statusOK ∨
      (s2.gradientBranch h g).2.code = StatusCode.internal := by
  unfold KnowledgeBankService.gradientBranch
  dsimp only
  split
  · right; rfl
  · split
    · right; rfl
    · split
      · right; rfl
      · split
        · right; rfl
        · left; rfl

theorem gradientBranch_cases (s2 : KnowledgeBankService)
    (h : StartSessionRequest) (g : List (String × Vec)) :
    (s2.gradientBranch h g).1 = s2 ∨ (s2.gradientBranch h g).2 = statusOK := by
  unfold KnowledgeBankService.gradientBranch
  dsimp only
  split
  · left; rfl
  · split
    · left; rfl
    · split
      · left; rfl
      · split
        · left; rfl
        · right; rfl

theorem gradientBranch_state_of_internal (s2 : KnowledgeBankService)
    (h : StartSessionRequest) (g : List (String × Vec))
    (hint : (s2.gradientBranch h g).2.code = StatusCode.internal) :
    (s2.gradientBranch h g).1 = s2 := by
  rcases gradientBranch_cases s2 h g with h1 | h2
  · exact h1
  · rw [h2] at hint
    simp [statusOK] at hint

/-- C8: an Update request fails with an invalid-argument status exactly when
the session handle is empty or both the values map and the gradients map are
empty, and in that case the service state is untouched: no session creation
and no store mutation happened. -/
theorem C8_update_invalid_argument_iff (s : KnowledgeBankService)
    (req : UpdateRequest) :
    ((s.update req).2.code = StatusCode.invalidArgument ↔
      (req.session_handle.isEmptyHandle = true ∨
        (req.values = [] ∧ req.gradients = []))) ∧
    ((req.session_handle.isEmptyHandle = true ∨
        (req.values = [] ∧ req.gradients = [])) → (s.update req).1 = s) := by
  by_cases he : req.session_handle.isEmptyHandle = true
  · constructor
    · simp [KnowledgeBankService.update, he, invalidStatus]
    · intro _; simp [KnowledgeBankService.update, he]
  · by_cases hb : req.values = [] ∧ req.gradients = []
    · constructor
      · simp [KnowledgeBankService.update, he, hb, invalidStatus]
      · intro _; simp [KnowledgeBankService.update, he, hb]
    · have hec : (s.startSessionIfNecessary req.session_handle).2.code
          ≠ StatusCode.invalidArgument := by
        rcases startSessionIfNecessary_status s req.session_handle with h1 | h2
        · rw [h1]; simp [statusOK]
        · simp [h2]
      have hgb : ∀ s2 : KnowledgeBankService,
          (s2.gradientBranch req.session_handle req.gradients).2.code
            ≠ StatusCode.invalidArgument := by
        intro s2
        rcases gradientBranch_status s2 req.session_handle req.gradients
          with g1 | g2
        · rw [g1]; simp [statusOK]
        · simp [g2]
      have hmain : (s.update req).2.code ≠ StatusCode.invalidArgument := by
        unfold KnowledgeBankService.update
        rw [if_neg he, if_neg hb]
        dsimp only
        split
        · exact hec
        · split
          · simp [statusOK]
          · exact hgb _
      exact ⟨⟨fun hc => absurd hc hmain, fun hcond => absurd hcond (by tauto)⟩,
        fun hcond => absurd hcond (by tauto)⟩

/-- C3: in the Lookup handler, the per-key results returned by the store are
assembled into the response table by dropping every failed key (an entry is
present exactly for the successful positions) without failing the call; the
call fails with an internal error exactly when the store returned a result
count different from the requested key count. The final conjunct shows the
handler routes the batch read of the session store through this assembly
step. -/
theorem C3_lookup_partial_results :
    (∀ (keys : List String) (voe : List (Sum Vec String)),
      ((lookupAssemble keys voe).1.code = StatusCode.internal ↔
        voe.length ≠ keys.length) ∧
      (voe.length = keys.length →
        (lookupAssemble keys voe).1 = statusOK ∧
        ∀ (k : String) (v : Vec),
          ((k, v) ∈ (lookupAssemble keys voe).2 ↔
            (k, Sum.inl v) ∈ keys.zip voe))) ∧
    (∀ (s s1 : KnowledgeBankService) (req : LookupRequest),
      req.session_handle.isEmptyHandle = false →
      req.key ≠ [] →
      s.startSessionIfNecessary req.session_handle = (s1, statusOK) →
      req.update = false →
      s.lookup req =
        (s1, lookupAssemble req.key
          ((s1.getStore req.session_handle).batchLookup req.key))) := by
  constructor
  · intro keys voe
    constructor
    · unfold lookupAssemble
      split
      · simpa [internalStatus] using ‹voe.length ≠ keys.length›
      · simp [statusOK]
        omega
    · intro hlen
      rw [lookupAssemble, if_neg (by omega)]
      refine ⟨rfl, ?_⟩
      intro k v
      exact validPairs_mem_iff keys voe k v
  · intro s s1 req hemp hkeys hens hupd
    unfold KnowledgeBankService.lookup
    rw [if_neg (by simp [hemp]), if_neg hkeys]
    dsimp only
    rw [hens, hupd]
    simp [statusOK]

/-- Witness for C3 at a concrete input: a session with one stored key, a
two-key request whose second key is absent; the absent key is dropped, the
call does not fail, and the handler equation holds. -/
theorem C3_lookup_partial_results_witness :
    ((lookupAssemble ["first", "missing"]
        [Sum.inl ([1, 2] : Vec), Sum.inr "Key not found: missing"]).1 = statusOK ∧
      ¬ (("missing", ([1, 2] : Vec)) ∈ (lookupAssemble ["first", "missing"]
        [Sum.inl ([1, 2] : Vec), Sum.inr "Key not found: missing"]).2)) ∧
    (KnowledgeBankService.mk
        [(⟨"emb", ⟨2, ⟨true, true⟩, none⟩⟩, ⟨2, [("first", [1, 2])]⟩)] []).lookup
      ⟨⟨"emb", ⟨2, ⟨true, true⟩, none⟩⟩, ["first", "missing"], false⟩ =
      (KnowledgeBankService.mk
        [(⟨"emb", ⟨2, ⟨true, true⟩, none⟩⟩, ⟨2, [("first", [1, 2])]⟩)] [],
        lookupAssemble ["first", "missing"]
          (((KnowledgeBankService.mk
            [(⟨"emb", ⟨2, ⟨true, true⟩, none⟩⟩, ⟨2, [("first", [1, 2])]⟩)]
            []).getStore ⟨"emb", ⟨2, ⟨true, true⟩, none⟩⟩).batchLookup
            ["first", "missing"])) := by
  have h := C3_lookup_partial_results
  constructor
  · constructor
    · exact (h.1 ["first", "missing"]
        [Sum.inl ([1, 2] : Vec), Sum.inr "Key not found: missing"]
        |>.2 (by decide)).1
    · intro hmem
      have h2 := ((h.1 ["first", "missing"]
        [Sum.inl ([1, 2] : Vec), Sum.inr "Key not found: missing"]
        |>.2 (by decide)).2 "missing" [1, 2]).mp hmem
      simp at h2
  · exact h.2 _ _ _ (by decide) (by decide) (by decide) rfl

theorem ensureOptimizer_ok_idem {s1 s2 : KnowledgeBankService}
    {h : StartSessionRequest} (heq : s1.ensureOptimizer h = (s2, statusOK)) :
    s2.ensureOptimizer h = (s2, statusOK) ∧ s2.es_map = s1.es_map := by
  unfold KnowledgeBankService.ensureOptimizer at heq ⊢
  cases hgd : h.config.gradient_descent_config with
  | none =>
    rw [hgd] at heq
    simp only [Prod.mk.injEq] at heq
    obtain ⟨hs, -⟩ := heq
    subst hs
    exact ⟨rfl, rfl⟩
  | some gdc =>
    rw [hgd] at heq
    dsimp only at heq
    by_cases hc : s1.containsGD h = true
    · rw [if_pos hc] at heq
      simp only [Prod.mk.injEq] at heq
      obtain ⟨hs, -⟩ := heq
      subst hs
      dsimp only
      rw [if_pos hc]
      exact ⟨rfl, rfl⟩
    · rw [if_neg hc] at heq
      cases hcr : GradientDescentOptimizer.create
          h.config.embedding_dimension gdc with
      | none =>
        rw [hcr] at heq
        simp [internalStatus, statusOK] at heq
      | some opt =>
        rw [hcr] at heq
        simp only [Prod.mk.injEq] at heq
        obtain ⟨hs, -⟩ := heq
        subst hs
        dsimp only
        have hgot : KnowledgeBankService.containsGD
            { s1 with gd_map := assocUpsert h opt s1.gd_map } h = true := by
          unfold KnowledgeBankService.containsGD
          dsimp only
          rw [assocFind_upsert_self]
          rfl
        rw [if_pos hgot]
        exact ⟨rfl, rfl⟩

theorem startSessionIfNecessary_ok_idem {s s1 : KnowledgeBankService}
    {h : StartSessionRequest}
    (heq : s.startSessionIfNecessary h = (s1, statusOK)) :
    s1.startSessionIfNecessary h = (s1, statusOK) := by
  unfold KnowledgeBankService.startSessionIfNecessary at heq ⊢
  by_cases hc : s.containsES h = true
  · rw [if_pos hc] at heq
    obtain ⟨h2, hes⟩ := ensureOptimizer_ok_idem heq
    have hc1 : s1.containsES h = true := by
      unfold KnowledgeBankService.containsES at hc ⊢
      rw [hes]
      exact hc
    rw [if_pos hc1]
    exact h2
  · rw [if_neg hc] at heq
    cases hm : KnowledgeBankFactory.make h.config.knowledge_bank_config
        h.config.embedding_dimension with
    | none =>
      rw [hm] at heq
      simp [internalStatus, statusOK] at heq
    | some kb =>
      rw [hm] at heq
      dsimp only at heq
      obtain ⟨h2, hes⟩ := ensureOptimizer_ok_idem heq
      have hc1 : s1.containsES h = true := by
        unfold KnowledgeBankService.containsES
        rw [hes]
        dsimp only
        rw [assocFind_upsert_self]
        rfl
      rw [if_pos hc1]
      exact h2

/-- Counterexample for C2 as stated: for the pair (name "emb", a
configuration whose knowledge-bank configuration selects no backend) the
name is non-empty, yet already the first StartSession call fails with an
internal error instead of succeeding, because the store construction
fails. -/
theorem C2_start_session_counterexample :
    ("emb" : String) ≠ "" ∧
    (emptyService.startSession
      ⟨"emb", ⟨10, ⟨false, false⟩, none⟩⟩).2.1.code = StatusCode.internal := by
  constructor
  · decide
  · rfl

/-- C2 (amended): for every (name, config) pair with non-empty name whose
first StartSession call succeeds, the returned handle is the serialized
request itself, and the second identical call succeeds, returns the
identical handle, and leaves the whole registry state unchanged: the
existing EmbeddingStore and Optimizer are reused, not constructed or
replaced, so no stored vector changes. -/
theorem C2_start_session_idempotent (s s1 : KnowledgeBankService)
    (req h : StartSessionRequest) (hname : req.name ≠ "")
    (hfirst : s.startSession req = (s1, statusOK, some h)) :
    h = req ∧ s1.startSession req = (s1, statusOK, some req) := by
  unfold KnowledgeBankService.startSession at hfirst ⊢
  rw [if_neg hname] at hfirst ⊢
  dsimp only at hfirst ⊢
  by_cases hok : (s.startSessionIfNecessary req).2.code = StatusCode.ok
  · rw [if_pos hok] at hfirst
    simp only [Prod.mk.injEq, Option.some.injEq] at hfirst
    obtain ⟨hs1, -, hh⟩ := hfirst
    have hstat : (s.startSessionIfNecessary req).2 = statusOK := by
      rcases startSessionIfNecessary_status s req with h1 | h2
      · exact h1
      · rw [hok] at h2
        cases h2
    have heq : s.startSessionIfNecessary req = (s1, statusOK) := by
      rw [← hs1, ← hstat]
    have hidem := startSessionIfNecessary_ok_idem heq
    rw [hidem]
    exact ⟨hh.symm, rfl⟩
  · rw [if_neg hok] at hfirst
    simp only [Prod.mk.injEq] at hfirst
    exact absurd hfirst.2.2 (by simp)

/-- The test configuration of the repository tests: embedding dimension 2, the
in-proto backend with the zero initial-value policy, sgd with learning rate
one tenth. -/
def sgdConfig : DynamicEmbeddingConfig := ⟨2, ⟨true, true⟩, some ⟨mkRat 1 10, true⟩⟩

/-- The StartSession request of the test configuration under name emb. -/
def sgdRequest : StartSessionRequest := ⟨"emb", sgdConfig⟩

/-- The service state right after a successful StartSession of sgdRequest. -/
def sgdService : KnowledgeBankService :=
  ⟨[(sgdRequest, ⟨2, []⟩)], [(sgdRequest, ⟨2, mkRat 1 10⟩)]⟩

/-- Witness for C2 at a concrete input: the session (name "emb", dimension 2,
in-proto backend, sgd with learning rate 1/10); after the successful first
call the second identical call returns the same handle and the same state. -/
theorem C2_start_session_idempotent_witness :
    sgdService.startSession sgdRequest = (sgdService, statusOK, some sgdRequest) :=
  (C2_start_session_idempotent emptyService sgdService sgdRequest sgdRequest
    (by decide) (by decide)).2

/-- C10: when session creation constructs the EmbeddingStore successfully
but the Optimizer construction fails, the call returns an internal error
while the new store stays registered under the handle: the size query counts
it, a repeated call for the same handle returns the same error without
touching the state, and the registered store is exactly the one created
first (reused, not rebuilt). StartSession with a non-empty name surfaces the
same error with the mutated state. -/
theorem C10_store_kept_on_optimizer_failure (s : KnowledgeBankService)
    (h : StartSessionRequest) (kb : EmbeddingStore)
    (gdc : GradientDescentConfig)
    (hnc : s.containsES h = false)
    (hmk : KnowledgeBankFactory.make h.config.knowledge_bank_config
      h.config.embedding_dimension = some kb)
    (hgd : h.config.gradient_descent_config = some gdc)
    (hcr : GradientDescentOptimizer.create h.config.embedding_dimension gdc
      = none)
    (hng : s.containsGD h = false)
    (hname : h.name ≠ "") :
    s.startSessionIfNecessary h =
      ({ s with es_map := assocUpsert h kb s.es_map },
        internalStatus "Creating GradientDescentOptimizer failed.") ∧
    KnowledgeBankService.containsES
      { s with es_map := assocUpsert h kb s.es_map } h = true ∧
    KnowledgeBankService.knowledgeBankSize
      { s with es_map := assocUpsert h kb s.es_map }
      = s.knowledgeBankSize + 1 ∧
    KnowledgeBankService.startSessionIfNecessary
      { s with es_map := assocUpsert h kb s.es_map } h =
      ({ s with es_map := assocUpsert h kb s.es_map },
        internalStatus "Creating GradientDescentOptimizer failed.") ∧
    KnowledgeBankService.getStore
      { s with es_map := assocUpsert h kb s.es_map } h = kb ∧
    s.startSession h =
      ({ s with es_map := assocUpsert h kb s.es_map },
        internalStatus "Creating GradientDescentOptimizer failed.", none) := by
  have hnotc : ¬ s.containsES h = true := by rw [hnc]; simp
  have hgdfail : ∀ s1 : KnowledgeBankService, s1.containsGD h = false →
      s1.ensureOptimizer h =
        (s1, internalStatus "Creating GradientDescentOptimizer failed.") := by
    intro s1 hno
    unfold KnowledgeBankService.ensureOptimizer
    rw [hgd]
    dsimp only
    rw [if_neg (by rw [hno]; simp), hcr]
  have hs1gd : KnowledgeBankService.containsGD
      { s with es_map := assocUpsert h kb s.es_map } h = s.containsGD h := rfl
  have hfirst : s.startSessionIfNecessary h =
      ({ s with es_map := assocUpsert h kb s.es_map },
        internalStatus "Creating GradientDescentOptimizer failed.") := by
    unfold KnowledgeBankService.startSessionIfNecessary
    rw [if_neg hnotc, hmk]
    dsimp only
    exact hgdfail _ (hs1gd.trans hng)
  have hfind : assocFind h s.es_map = none := by
    unfold KnowledgeBankService.containsES at hnc
    cases hf : assocFind h s.es_map with
    | none => rfl
    | some v => rw [hf] at hnc; simp at hnc
  have hces : KnowledgeBankService.containsES
      { s with es_map := assocUpsert h kb s.es_map } h = true := by
    unfold KnowledgeBankService.containsES
    dsimp only
    rw [assocFind_upsert_self]
    rfl
  refine ⟨hfirst, hces, ?_, ?_, ?_, ?_⟩
  · unfold KnowledgeBankService.knowledgeBankSize
    exact assocUpsert_length_of_none kb hfind
  · unfold KnowledgeBankService.startSessionIfNecessary
    rw [if_pos hces]
    exact hgdfail _ (hs1gd.trans hng)
  · unfold KnowledgeBankService.getStore
    dsimp only
    rw [assocFind_upsert_self]
    rfl
  · unfold KnowledgeBankService.startSession
    rw [if_neg hname]
    dsimp only
    rw [hfirst]
    simp [internalStatus]

/-- Witness for C10 at a concrete input: a fresh service, a request whose
knowledge-bank configuration selects the in-proto backend but whose
gradient-descent configuration selects no algorithm, so the optimizer
construction fails while the store is created and registered. -/
theorem C10_store_kept_on_optimizer_failure_witness :
    emptyService.startSessionIfNecessary
      ⟨"emb", ⟨2, ⟨true, true⟩, some ⟨mkRat 1 10, false⟩⟩⟩ =
      (⟨[(⟨"emb", ⟨2, ⟨true, true⟩, some ⟨mkRat 1 10, false⟩⟩⟩, ⟨2, []⟩)], []⟩,
        internalStatus "Creating GradientDescentOptimizer failed.") ∧
    KnowledgeBankService.knowledgeBankSize
      ⟨[(⟨"emb", ⟨2, ⟨true, true⟩, some ⟨mkRat 1 10, false⟩⟩⟩, ⟨2, []⟩)], []⟩
      = emptyService.knowledgeBankSize + 1 := by
  have h := C10_store_kept_on_optimizer_failure emptyService
    ⟨"emb", ⟨2, ⟨true, true⟩, some ⟨mkRat 1 10, false⟩⟩⟩ ⟨2, []⟩
    ⟨mkRat 1 10, false⟩ (by decide) (by decide) rfl (by decide) (by decide)
    (by decide)
  exact ⟨h.1, h.2.2.1⟩

/-- C9: for an Update request carrying both values and gradients, when the
call fails with an internal error (no optimizer, no valid keys, or an
optimizer failure, all raised in the gradient branch), the values-branch
batch overwrite has already been applied to the session store and is not
rolled back: the resulting state is exactly the post-ensure state with the
values overwrite installed, while the call reports failure. -/
theorem C9_values_not_rolled_back (s s1 : KnowledgeBankService)
    (req : UpdateRequest)
    (hemp : req.session_handle.isEmptyHandle = false)
    (hv : req.values ≠ [])
    (hg : req.gradients ≠ [])
    (hens : s.startSessionIfNecessary req.session_handle = (s1, statusOK))
    (hint : (s.update req).2.code = StatusCode.internal) :
    (s.update req).1 =
      s1.setStore req.session_handle
        ((s1.getStore req.session_handle).batchUpdate
          (req.values.map Prod.fst) (req.values.map Prod.snd)) ∧
    (s.update req).2.code ≠ StatusCode.ok := by
  have heq : s.update req =
      KnowledgeBankService.gradientBranch
        (s1.setStore req.session_handle
          ((s1.getStore req.session_handle).batchUpdate
            (req.values.map Prod.fst) (req.values.map Prod.snd)))
        req.session_handle req.gradients := by
    unfold KnowledgeBankService.update
    rw [if_neg (by simp [hemp]), if_neg (by tauto)]
    dsimp only
    rw [hens]
    rw [if_neg (by simp [statusOK]), if_neg hv, if_neg hg]
  rw [heq] at hint ⊢
  refine ⟨gradientBranch_state_of_internal _ _ _ hint, ?_⟩
  rw [hint]
  simp

/-- Witness for C9 at a concrete input: a session without gradient-descent
configuration receives an Update with both maps populated; the values
overwrite lands in the store while the missing optimizer makes the call fail
with an internal error. -/
theorem C9_values_not_rolled_back_witness :
    ((emptyService.update
      ⟨⟨"emb", ⟨2, ⟨true, true⟩, none⟩⟩,
        [("first", [5, 7])], [("first", [1, 2])]⟩).1 =
      KnowledgeBankService.setStore
        ⟨[(⟨"emb", ⟨2, ⟨true, true⟩, none⟩⟩, ⟨2, []⟩)], []⟩
        ⟨"emb", ⟨2, ⟨true, true⟩, none⟩⟩
        ((KnowledgeBankService.getStore
          ⟨[(⟨"emb", ⟨2, ⟨true, true⟩, none⟩⟩, ⟨2, []⟩)], []⟩
          ⟨"emb", ⟨2, ⟨true, true⟩, none⟩⟩).batchUpdate
          ["first"] [[5, 7]])) ∧
    ((emptyService.update
      ⟨⟨"emb", ⟨2, ⟨true, true⟩, none⟩⟩,
        [("first", [5, 7])], [("first", [1, 2])]⟩).2.code
      ≠ StatusCode.ok) := by
  have h := C9_values_not_rolled_back emptyService
    ⟨[(⟨"emb", ⟨2, ⟨true, true⟩, none⟩⟩, ⟨2, []⟩)], []⟩
    ⟨⟨"emb", ⟨2, ⟨true, true⟩, none⟩⟩, [("first", [5, 7])], [("first", [1, 2])]⟩
    (by decide) (by decide) (by decide) (by decide) (by decide)
  exact h

/-- C1: in the gradient branch of Update (with an optimizer present and at
least one valid key), Apply is invoked with the current-vector list built
only from the keys whose batch fetch succeeded, in original key order (the
valid keys: a sublist of the original keys, each paired with the vector its
own fetch returned), while the gradient list passed to Apply is built from
the full original gradient key list; the write-back stores the returned
vectors keyed by the valid keys. Consequently, when any fetch fails, the two
lists passed to Apply differ in length. -/
theorem C1_gradient_apply_alignment (s2 : KnowledgeBankService)
    (handle : StartSessionRequest) (g : List (String × Vec))
    (hgd : s2.containsGD handle = true)
    (hvp : validPairs (g.map Prod.fst)
      ((s2.getStore handle).batchLookup (g.map Prod.fst)) ≠ []) :
    (s2.gradientBranch handle g =
      (let vp := validPairs (g.map Prod.fst)
        ((s2.getStore handle).batchLookup (g.map Prod.fst))
       let applied := (s2.getGD handle).apply (vp.map Prod.snd)
        (g.map Prod.snd)
       if applied.1 = [] then
         (s2, internalStatus
           ("Applying gradient update returned error: " ++ applied.2))
       else
         (s2.setStore handle
           ((s2.getStore handle).batchUpdate (vp.map Prod.fst) applied.1),
           statusOK))) ∧
    ((validPairs (g.map Prod.fst)
      ((s2.getStore handle).batchLookup (g.map Prod.fst))).map
        Prod.fst).Sublist (g.map Prod.fst) ∧
    (∀ kv ∈ validPairs (g.map Prod.fst)
        ((s2.getStore handle).batchLookup (g.map Prod.fst)),
      (s2.getStore handle).lookupOne kv.1 = Sum.inl kv.2) ∧
    ((∃ r ∈ (s2.getStore handle).batchLookup (g.map Prod.fst),
        ∃ e, r = Sum.inr e) →
      ((validPairs (g.map Prod.fst)
        ((s2.getStore handle).batchLookup (g.map Prod.fst))).map
          Prod.snd).length < (g.map Prod.snd).length) := by
  refine ⟨?_, validPairs_fst_sublist _ _,
    fun kv hkv => validPairs_batchLookup_mem hkv, ?_⟩
  · unfold KnowledgeBankService.gradientBranch
    rw [if_neg (by simp [hgd])]
    dsimp only
    rw [if_neg (by simp [EmbeddingStore.batchLookup])]
    rw [if_neg (fun hh => hvp (by simpa using hh))]
  · intro hex
    have hlenv : ((s2.getStore handle).batchLookup (g.map Prod.fst)).length
        = (g.map Prod.fst).length := by
      simp [EmbeddingStore.batchLookup]
    have hlt := validPairs_length_lt (g.map Prod.fst) _ hlenv hex
    simpa using hlt

/-- The store of the C1 witness session: only the key first is present. -/
def c1Store : EmbeddingStore := ⟨2, [("first", [0, 0])]⟩

/-- The C1 witness service: the sgd session with c1Store. -/
def c1Service : KnowledgeBankService :=
  ⟨[(sgdRequest, c1Store)], [(sgdRequest, ⟨2, mkRat 1 10⟩)]⟩

/-- The C1 witness gradients map: the key second was never written, so its
fetch fails. -/
def c1Gradients : List (String × Vec) :=
  [("first", [1, 2]), ("second", [3, 4])]

/-- Witness for C1 at a concrete input: with key second absent from the
store, one fetch fails and the current-vector list passed to Apply is
strictly shorter than the gradient list passed to Apply. -/
theorem C1_gradient_apply_alignment_witness :
    ((validPairs (c1Gradients.map Prod.fst)
      ((c1Service.getStore sgdRequest).batchLookup
        (c1Gradients.map Prod.fst))).map Prod.snd).length
      < (c1Gradients.map Prod.snd).length := by
  have h := C1_gradient_apply_alignment c1Service sgdRequest c1Gradients
    (by decide) (by decide)
  refine h.2.2.2 ⟨Sum.inr "Key not found: second", ?_,
    "Key not found: second", rfl⟩
  simp [c1Service, c1Store, c1Gradients, sgdRequest, sgdConfig,
    KnowledgeBankService.getStore, EmbeddingStore.batchLookup,
    EmbeddingStore.lookupOne, assocFind]

/-- C6: UpdateValues fails with exactly the message "Input key is empty."
when the key batch has no elements; with exactly "Inconsistent keys size and
values size: n v.s. m" when the flattened key count n differs from the outer
element count m of the values batch; and with exactly "Inconsistent
embedding dimension, got d expect e" when the sizes agree but the
trailing-axis length d of the values differs from the configured dimension
e. The checks run in this order. -/
theorem C6_update_values_validation_messages (m : DynamicEmbeddingManager)
    (keys : StrTensor) (values : NumTensor) :
    (numElements keys.shape = 0 →
      m.updateValues keys values = Except.error "Input key is empty.") ∧
    (numElements keys.shape ≠ 0 →
      numElements keys.shape ≠ outerCount values.shape →
      m.updateValues keys values = Except.error
        ("Inconsistent keys size and values size: "
          ++ toString (numElements keys.shape) ++ " v.s. "
          ++ toString (outerCount values.shape))) ∧
    (numElements keys.shape ≠ 0 →
      numElements keys.shape = outerCount values.shape →
      lastDim values.shape ≠ m.config.embedding_dimension →
      m.updateValues keys values = Except.error
        ("Inconsistent embedding dimension, got "
          ++ toString (lastDim values.shape) ++ " expect "
          ++ toString m.config.embedding_dimension)) := by
  refine ⟨?_, ?_, ?_⟩
  · intro h0
    unfold DynamicEmbeddingManager.updateValues
      DynamicEmbeddingManager.checkedPairs
    rw [if_pos h0]
  · intro h0 hne
    unfold DynamicEmbeddingManager.updateValues
      DynamicEmbeddingManager.checkedPairs
    rw [if_neg h0, if_pos hne]
  · intro h0 heq hd
    unfold DynamicEmbeddingManager.updateValues
      DynamicEmbeddingManager.checkedPairs
    rw [if_neg h0, if_neg (by omega : ¬ numElements keys.shape
      ≠ outerCount values.shape), if_pos hd]

/-- The manager fixture of the C6 witness: the sgd test session, dimension
2. -/
def c6Manager : DynamicEmbeddingManager := ⟨sgdConfig, "emb", sgdService, sgdRequest⟩

/-- Witness for C6 at the inputs of the repository test: 3 keys against a
2 by 2 values batch gives the literal size message with 3 v.s. 2; 3 keys
against a 3 by 4 batch gives the literal dimension message with got 4 expect
2; a zero-element key tensor gives the literal empty-key message. -/
theorem C6_update_values_validation_messages_witness :
    c6Manager.updateValues ⟨[0], []⟩ ⟨[2, 2], [0, 0, 0, 0]⟩
      = Except.error "Input key is empty." ∧
    c6Manager.updateValues ⟨[3], ["a", "b", "c"]⟩ ⟨[2, 2], [0, 0, 0, 0]⟩
      = Except.error "Inconsistent keys size and values size: 3 v.s. 2" ∧
    c6Manager.updateValues ⟨[3], ["a", "b", "c"]⟩
        ⟨[3, 4], [0, 0, 0, 0, 0, 0, 0, 0, 0, 0, 0, 0]⟩
      = Except.error "Inconsistent embedding dimension, got 4 expect 2" := by
  refine ⟨?_, ?_, ?_⟩
  · exact (C6_update_values_validation_messages c6Manager ⟨[0], []⟩
      ⟨[2, 2], [0, 0, 0, 0]⟩).1 (by decide)
  · exact ((C6_update_values_validation_messages c6Manager ⟨[3], ["a", "b", "c"]⟩
      ⟨[2, 2], [0, 0, 0, 0]⟩).2.1 (by decide) (by decide)).trans
      (congrArg Except.error (by decide))
  · exact ((C6_update_values_validation_messages c6Manager ⟨[3], ["a", "b", "c"]⟩
      ⟨[3, 4], [0, 0, 0, 0, 0, 0, 0, 0, 0, 0, 0, 0]⟩).2.2 (by decide)
      (by decide) (by decide)).trans
      (congrArg Except.error (by decide))

/-- The key batch of the SGD test: three keys in one row. -/
def c5Keys : StrTensor := ⟨[3], ["first", "second", "third"]⟩

/-- The gradient batch of the SGD test. -/
def c5Grads : NumTensor := ⟨[3, 2], [1, 2, 3, 4, 5, 6]⟩

/-- The manager state after the create-on-miss lookup of the three keys:
all three vectors exist and are zero. -/
def c5M1 : DynamicEmbeddingManager :=
  ⟨sgdConfig, "emb",
    ⟨[(sgdRequest,
      ⟨2, [("first", [0, 0]), ("second", [0, 0]), ("third", [0, 0])]⟩)],
      [(sgdRequest, ⟨2, mkRat 1 10⟩)]⟩,
    sgdRequest⟩

/-- The manager state after the gradient update with learning rate 1/10. -/
def c5M2 : DynamicEmbeddingManager :=
  ⟨sgdConfig, "emb",
    ⟨[(sgdRequest,
      ⟨2, [("first", [mkRat (-1) 10, mkRat (-1) 5]),
           ("second", [mkRat (-3) 10, mkRat (-2) 5]),
           ("third", [mkRat (-1) 2, mkRat (-3) 5])]⟩)],
      [(sgdRequest, ⟨2, mkRat 1 10⟩)]⟩,
    sgdRequest⟩

/-- C5: with learning rate 1/10 and SGD, starting from zero-initialized
vectors, applying UpdateGradients with gradients (1,2), (3,4), (5,6) to the
three keys yields stored vectors (-1/10, -2/10), (-3/10, -4/10),
(-5/10, -6/10), observed by a subsequent Lookup without update (floats are
modelled as exact rationals, so -0.1 is mkRat (-1) 10, and so on, in reduced
form). -/
theorem C5_sgd_numerics :
    DynamicEmbeddingManager.create sgdConfig "emb" "localhost:0" emptyService
      = some ⟨sgdConfig, "emb", sgdService, sgdRequest⟩ ∧
    DynamicEmbeddingManager.lookup
      ⟨sgdConfig, "emb", sgdService, sgdRequest⟩ c5Keys true
      = Except.ok (c5M1, ⟨[3, 2], [0, 0, 0, 0, 0, 0]⟩) ∧
    c5M1.updateGradients c5Keys c5Grads = Except.ok c5M2 ∧
    c5M2.lookup c5Keys false = Except.ok (c5M2,
      ⟨[3, 2], [mkRat (-1) 10, mkRat (-1) 5, mkRat (-3) 10, mkRat (-2) 5,
        mkRat (-1) 2, mkRat (-3) 5]⟩) := by
  refine ⟨?_, ?_, ?_, ?_⟩ <;> decide

/-! Structural lemmas about the service state, used by the round-trip
claim. -/

theorem setStore_containsES (s : KnowledgeBankService)
    (h : StartSessionRequest) (st : EmbeddingStore) :
    (s.setStore h st).containsES h = true := by
  unfold KnowledgeBankService.setStore KnowledgeBankService.containsES
  dsimp only
  rw [assocFind_upsert_self]
  rfl

theorem setStore_getStore (s : KnowledgeBankService)
    (h : StartSessionRequest) (st : EmbeddingStore) :
    (s.setStore h st).getStore h = st := by
  unfold KnowledgeBankService.setStore KnowledgeBankService.getStore
  dsimp only
  rw [assocFind_upsert_self]
  rfl

theorem setStore_gd_map (s : KnowledgeBankService)
    (h : StartSessionRequest) (st : EmbeddingStore) :
    (s.setStore h st).gd_map = s.gd_map := rfl

theorem ensureOptimizer_es_map (s : KnowledgeBankService)
    (h : StartSessionRequest) :
    (s.ensureOptimizer h).1.es_map = s.es_map := by
  unfold KnowledgeBankService.ensureOptimizer
  split
  · rfl
  · split
    · rfl
    · split
      · rfl
      · rfl

theorem ensureOptimizer_contains_of_ok {s s1 : KnowledgeBankService}
    {h : StartSessionRequest}
    (heq : s.ensureOptimizer h = (s1, statusOK)) :
    h.config.gradient_descent_config = none ∨ s1.containsGD h = true := by
  unfold KnowledgeBankService.ensureOptimizer at heq
  cases hgd : h.config.gradient_descent_config with
  | none => exact Or.inl rfl
  | some gdc =>
    rw [hgd] at heq
    dsimp only at heq
    right
    by_cases hc : s.containsGD h = true
    · rw [if_pos hc] at heq
      simp only [Prod.mk.injEq] at heq
      rw [← heq.1]
      exact hc
    · rw [if_neg hc] at heq
      cases hcr : GradientDescentOptimizer.create
          h.config.embedding_dimension gdc with
      | none =>
        rw [hcr] at heq
        simp [internalStatus, statusOK] at heq
      | some opt =>
        rw [hcr] at heq
        simp only [Prod.mk.injEq] at heq
        rw [← heq.1]
        unfold KnowledgeBankService.containsGD
        dsimp only
        rw [assocFind_upsert_self]
        rfl

theorem ensureOptimizer_ok_of_contains {s : KnowledgeBankService}
    {h : StartSessionRequest}
    (hc : h.config.gradient_descent_config = none ∨ s.containsGD h = true) :
    s.ensureOptimizer h = (s, statusOK) := by
  unfold KnowledgeBankService.ensureOptimizer
  cases hgd : h.config.gradient_descent_config with
  | none => rfl
  | some gdc =>
    dsimp only
    rcases hc with h1 | h2
    · rw [hgd] at h1
      cases h1
    · rw [if_pos h2]

theorem ensure_self_ok_pieces {s : KnowledgeBankService}
    {h : StartSessionRequest}
    (hens : s.startSessionIfNecessary h = (s, statusOK)) :
    s.containsES h = true ∧ s.ensureOptimizer h = (s, statusOK) := by
  unfold KnowledgeBankService.startSessionIfNecessary at hens
  by_cases hc : s.containsES h = true
  · rw [if_pos hc] at hens
    exact ⟨hc, hens⟩
  · rw [if_neg hc] at hens
    cases hm : KnowledgeBankFactory.make h.config.knowledge_bank_config
        h.config.embedding_dimension with
    | none =>
      rw [hm] at hens
      simp [internalStatus, statusOK] at hens
    | some kb =>
      rw [hm] at hens
      dsimp only at hens
      exfalso
      have h1 := ensureOptimizer_es_map
        { s with es_map := assocUpsert h kb s.es_map } h
      have h2 : (KnowledgeBankService.ensureOptimizer
          { s with es_map := assocUpsert h kb s.es_map } h).1 = s :=
        congrArg Prod.fst hens
      rw [h2] at h1
      have hfind : assocFind h s.es_map = none := by
        unfold KnowledgeBankService.containsES at hc
        cases hf : assocFind h s.es_map with
        | none => rfl
        | some v => rw [hf] at hc; simp at hc
      have hlen := assocUpsert_length_of_none kb hfind
      dsimp only at h1
      rw [← h1] at hlen
      omega

theorem gradientBranch_gd_map (s2 : KnowledgeBankService)
    (h : StartSessionRequest) (g : List (String × Vec)) :
    (s2.gradientBranch h g).1.gd_map = s2.gd_map := by
  unfold KnowledgeBankService.gradientBranch
  dsimp only
  split
  · rfl
  · split
    · rfl
    · split
      · rfl
      · split
        · rfl
        · rfl

theorem update_gd_map (s : KnowledgeBankService) (req : UpdateRequest)
    (hens : s.startSessionIfNecessary req.session_handle = (s, statusOK)) :
    (s.update req).1.gd_map = s.gd_map := by
  unfold KnowledgeBankService.update
  by_cases hemp : req.session_handle.isEmptyHandle = true
  · rw [if_pos hemp]
  · rw [if_neg hemp]
    by_cases hboth : req.values = [] ∧ req.gradients = []
    · rw [if_pos hboth]
    · rw [if_neg hboth]
      dsimp only
      rw [hens]
      rw [if_neg (by simp [statusOK])]
      by_cases hg : req.gradients = []
      · rw [if_pos hg]
        dsimp only
        split
        · rfl
        · rfl
      · rw [if_neg hg]
        rw [gradientBranch_gd_map]
        split
        · rfl
        · rfl

theorem updateValues_ok_shape {m m' : DynamicEmbeddingManager}
    {keys : StrTensor} {values : NumTensor}
    (hupd : m.updateValues keys values = Except.ok m') :
    ∃ pairs : List (String × Vec),
      m' = { m with service :=
        (m.service.update ⟨m.session_handle, pairs, []⟩).1 } := by
  unfold DynamicEmbeddingManager.updateValues at hupd
  cases hcp : m.checkedPairs keys values with
  | error e => rw [hcp] at hupd; cases hupd
  | ok pairs =>
    rw [hcp] at hupd
    dsimp only at hupd
    split at hupd
    · injection hupd with hmm
      exact ⟨pairs, hmm.symm⟩
    · cases hupd

theorem lookup_result_store_determined {sA sB : KnowledgeBankService}
    {h : StartSessionRequest}
    (hstore : sA.getStore h = sB.getStore h)
    (hensA : sA.startSessionIfNecessary h = (sA, statusOK))
    (hensB : sB.startSessionIfNecessary h = (sB, statusOK))
    (keys : List String) :
    (sA.lookup ⟨h, keys, false⟩).2 = (sB.lookup ⟨h, keys, false⟩).2 := by
  unfold KnowledgeBankService.lookup
  by_cases hemp : h.isEmptyHandle = true
  · rw [if_pos hemp, if_pos hemp]
  · rw [if_neg hemp, if_neg hemp]
    by_cases hk : keys = []
    · rw [if_pos hk, if_pos hk]
    · rw [if_neg hk, if_neg hk]
      dsimp only
      rw [hensA, hensB]
      rw [if_neg (show ¬ ((sA, statusOK).2.code ≠ StatusCode.ok) from
          fun hcc => hcc rfl),
        if_neg (show ¬ ((sB, statusOK).2.code ≠ StatusCode.ok) from
          fun hcc => hcc rfl)]
      rw [if_neg (by simp), if_neg (by simp)]
      rw [hstore]

theorem manager_lookup_map_eq {mA mB : DynamicEmbeddingManager}
    (hcfg : mA.config = mB.config)
    (hsl : ∀ keys : List String,
      (mA.service.lookup ⟨mA.session_handle, keys, false⟩).2
        = (mB.service.lookup ⟨mB.session_handle, keys, false⟩).2)
    (lk : StrTensor) :
    Except.map (fun p => p.2) (mA.lookup lk false)
      = Except.map (fun p => p.2) (mB.lookup lk false) := by
  unfold DynamicEmbeddingManager.lookup
  by_cases h0 : numElements lk.shape = 0
  · rw [if_pos h0, if_pos h0]
  · rw [if_neg h0, if_neg h0]
    dsimp only
    rw [hsl lk.data, hcfg]
    by_cases hcode : (mB.service.lookup
        ⟨mB.session_handle, lk.data, false⟩).2.1.code ≠ StatusCode.ok
    · rw [if_pos hcode, if_pos hcode]
    · rw [if_neg hcode, if_neg hcode]
      rfl

/-- C4: Export returns exactly the deterministic path
directory/name/embedding_store_meta_data.pbtxt, and the sequence export,
overwrite via UpdateValues, Import of the exported path restores the
embedding state present at export time, so a subsequent Lookup without
update returns exactly the pre-mutation tensors. Stated for a manager whose
session is established on its service (as Create leaves it). -/
theorem C4_export_import_round_trip (m m' : DynamicEmbeddingManager)
    (fs : FileSystem) (directory : String)
    (keys : StrTensor) (values : NumTensor)
    (hens : m.service.startSessionIfNecessary m.session_handle
      = (m.service, statusOK))
    (hupd : m.updateValues keys values = Except.ok m') :
    (m.exportStore fs directory).1
      = directory ++ "/" ++ m.session_name
        ++ "/embedding_store_meta_data.pbtxt" ∧
    ∃ m'' : DynamicEmbeddingManager,
      m'.importStore (m.exportStore fs directory).2
          (m.exportStore fs directory).1 = Except.ok m'' ∧
      m''.service.getStore m''.session_handle
        = m.service.getStore m.session_handle ∧
      ∀ lk : StrTensor,
        Except.map (fun p => p.2) (m''.lookup lk false)
          = Except.map (fun p => p.2) (m.lookup lk false) := by
  obtain ⟨pairs, hshape⟩ := updateValues_ok_shape hupd
  obtain ⟨hces, hopt⟩ := ensure_self_ok_pieces hens
  have hgdopt := ensureOptimizer_contains_of_ok hopt
  have hm'h : m'.session_handle = m.session_handle := by rw [hshape]
  have hm'cfg : m'.config = m.config := by rw [hshape]
  have hm'name : m'.session_name = m.session_name := by rw [hshape]
  have hm'gd : m'.service.gd_map = m.service.gd_map := by
    rw [hshape]
    exact update_gd_map m.service _ hens
  have hlit : ("/" : String) ++ "embedding_store_meta_data.pbtxt"
      = "/embedding_store_meta_data.pbtxt" := by decide
  have hens'' : (m'.service.setStore m'.session_handle
      (m.service.getStore m.session_handle)).startSessionIfNecessary
        m.session_handle =
      (m'.service.setStore m'.session_handle
        (m.service.getStore m.session_handle), statusOK) := by
    have hcontains : (m'.service.setStore m'.session_handle
        (m.service.getStore m.session_handle)).containsES
          m.session_handle = true := by
      rw [← hm'h]
      exact setStore_containsES _ _ _
    have hgd'' : (m'.service.setStore m'.session_handle
        (m.service.getStore m.session_handle)).containsGD m.session_handle
          = m.service.containsGD m.session_handle := by
      unfold KnowledgeBankService.containsGD
      rw [setStore_gd_map, hm'gd]
    unfold KnowledgeBankService.startSessionIfNecessary
    rw [if_pos hcontains]
    refine ensureOptimizer_ok_of_contains ?_
    rcases hgdopt with h1 | h2
    · exact Or.inl h1
    · right
      rw [hgd'']
      exact h2
  rw [hm'h] at hens''
  constructor
  · unfold DynamicEmbeddingManager.exportStore joinPath
    dsimp only
    simp only [String.append_assoc]
    rw [hlit]
  · use { m' with service := m'.service.setStore m'.session_handle (m.service.getStore m.session_handle) }
    refine ⟨?_, ?_, ?_⟩
    · unfold DynamicEmbeddingManager.importStore
        DynamicEmbeddingManager.exportStore
      dsimp only
      rw [assocFind_upsert_self]
    · dsimp only
      rw [hm'h]
      exact setStore_getStore _ _ _
    · intro lk
      refine manager_lookup_map_eq (by dsimp only; rw [hm'cfg]) ?_ lk
      intro ks
      dsimp only
      rw [hm'h]
      refine lookup_result_store_determined ?_ hens'' hens ks
      rw [setStore_getStore]

/-- The manager state after overwriting the three keys of c5M1 with
(1,2), (3,4), (5,6) via UpdateValues. -/
def c4Mutated : DynamicEmbeddingManager :=
  ⟨sgdConfig, "emb",
    ⟨[(sgdRequest,
      ⟨2, [("first", [1, 2]), ("second", [3, 4]), ("third", [5, 6])]⟩)],
      [(sgdRequest, ⟨2, mkRat 1 10⟩)]⟩,
    sgdRequest⟩

/-- Witness for C4 at a concrete input: export the zero-initialized
three-key session, overwrite the three keys, import the exported snapshot;
the exported path is tmp/emb/embedding_store_meta_data.pbtxt, the store is
restored exactly, and every subsequent lookup without update returns the
pre-mutation tensors. -/
theorem C4_export_import_round_trip_witness :
    (c5M1.exportStore ([] : FileSystem) "/tmp").1
      = "/tmp" ++ "/" ++ c5M1.session_name
        ++ "/embedding_store_meta_data.pbtxt" ∧
    ∃ m'' : DynamicEmbeddingManager,
      c4Mutated.importStore (c5M1.exportStore ([] : FileSystem) "/tmp").2
          (c5M1.exportStore ([] : FileSystem) "/tmp").1 = Except.ok m'' ∧
      m''.service.getStore m''.session_handle
        = c5M1.service.getStore c5M1.session_handle ∧
      ∀ lk : StrTensor,
        Except.map (fun p => p.2) (m''.lookup lk false)
          = Except.map (fun p => p.2) (c5M1.lookup lk false) :=
  C4_export_import_round_trip c5M1 c4Mutated ([] : FileSystem) "/tmp" c5Keys
    ⟨[3, 2], [1, 2, 3, 4, 5, 6]⟩ (by decide) (by decide)

/-! Support lemmas for the padding-sentinel claim. -/

theorem assocFind_some_mem {α β : Type} [DecidableEq α] {k : α} {v : β}
    {l : List (α × β)} (h : assocFind k l = some v) : (k, v) ∈ l := by
  induction l with
  | nil => simp [assocFind] at h
  | cons p rest ih =>
    by_cases hk : p.1 = k
    · rw [assocFind, if_pos hk] at h
      injection h with hv
      have hkv : (k, v) = p := by rw [← hk, ← hv]
      rw [hkv]
      exact List.mem_cons_self p rest
    · rw [assocFind, if_neg hk] at h
      exact List.mem_cons_of_mem p (ih h)

theorem mem_assocUpsert {α β : Type} [DecidableEq α] {k : α} {v : β}
    {l : List (α × β)} {kv : α × β} (h : kv ∈ assocUpsert k v l) :
    kv = (k, v) ∨ kv ∈ l := by
  induction l with
  | nil => simpa [assocUpsert] using h
  | cons p rest ih =>
    by_cases hk : p.1 = k
    · rw [assocUpsert, if_pos hk] at h
      rcases List.mem_cons.mp h with h1 | h2
      · exact Or.inl h1
      · exact Or.inr (List.mem_cons_of_mem p h2)
    · rw [assocUpsert, if_neg hk] at h
      rcases List.mem_cons.mp h with h1 | h2
      · exact Or.inr (h1 ▸ List.mem_cons_self p rest)
      · rcases ih h2 with h3 | h4
        · exact Or.inl h3
        · exact Or.inr (List.mem_cons_of_mem p h4)

/-- The dimension invariant of a store: every stored vector has the
configured length. -/
def EmbeddingStore.wf (st : EmbeddingStore) : Prop :=
  ∀ kv ∈ st.table, (kv.2 : Vec).length = st.dim

theorem zeroVec_length (d : Nat) : (zeroVec d).length = d := by
  simp [zeroVec]

theorem batchLWU_length (st : EmbeddingStore) (keys : List String) :
    ((st.batchLookupWithUpdate keys).1).length = keys.length := by
  induction keys generalizing st with
  | nil => rfl
  | cons k ks ih =>
    unfold EmbeddingStore.batchLookupWithUpdate
    dsimp only
    rw [List.length_cons, ih]
    rfl

theorem lookupWithUpdateOne_cases (st : EmbeddingStore) (k : String) :
    (st.lookupWithUpdateOne k).2.dim = st.dim ∧
    ((k = "" ∧ st.lookupWithUpdateOne k
        = (Sum.inr "Input key is empty.", st)) ∨
      (∃ v, assocFind k st.table = some v ∧
        st.lookupWithUpdateOne k = (Sum.inl v, st)) ∨
      (assocFind k st.table = none ∧
        st.lookupWithUpdateOne k = (Sum.inl (zeroVec st.dim),
          { st with table := assocUpsert k (zeroVec st.dim) st.table }))) := by
  unfold EmbeddingStore.lookupWithUpdateOne
  by_cases hk : k = ""
  · rw [if_pos hk]
    exact ⟨rfl, Or.inl ⟨hk, rfl⟩⟩
  · rw [if_neg hk]
    cases hf : assocFind k st.table with
    | some v => exact ⟨rfl, Or.inr (Or.inl ⟨v, rfl, rfl⟩)⟩
    | none => exact ⟨rfl, Or.inr (Or.inr ⟨rfl, rfl⟩)⟩

theorem validPairs_batchLWU_target (keys : List String) (st : EmbeddingStore)
    (k0 : String) (D : Nat) (hdim : st.dim = D)
    (hk0 : k0 = "" ∨ assocFind k0 st.table = none ∨
      assocFind k0 st.table = some (zeroVec D)) :
    assocFind k0 (validPairs keys (st.batchLookupWithUpdate keys).1) = none ∨
    assocFind k0 (validPairs keys (st.batchLookupWithUpdate keys).1)
      = some (zeroVec D) := by
  induction keys generalizing st with
  | nil => left; rfl
  | cons k ks ih =>
    unfold EmbeddingStore.batchLookupWithUpdate
    dsimp only
    obtain ⟨hdim1, hcases⟩ := lookupWithUpdateOne_cases st k
    rcases hcases with ⟨hke, heq⟩ | ⟨v, hfv, heq⟩ | ⟨hfn, heq⟩
    · rw [heq]
      dsimp only
      rw [validPairs_cons_inr]
      exact ih st hdim hk0
    · rw [heq]
      dsimp only
      rw [validPairs_cons_inl]
      by_cases hkk : k = k0
      · rw [assocFind, if_pos hkk]
        subst hkk
        rcases hk0 with h1 | h2 | h3
        · subst h1
          unfold EmbeddingStore.lookupWithUpdateOne at heq
          rw [if_pos rfl] at heq
          simp at heq
        · rw [h2] at hfv; cases hfv
        · rw [h3] at hfv
          injection hfv with hv
          right
          rw [hv]
      · rw [assocFind, if_neg hkk]
        exact ih st hdim hk0
    · rw [heq]
      dsimp only
      rw [validPairs_cons_inl]
      by_cases hkk : k = k0
      · rw [assocFind, if_pos hkk]
        right
        rw [hdim]
      · rw [assocFind, if_neg hkk]
        refine ih _ hdim ?_
        rcases hk0 with h1 | h2 | h3
        · exact Or.inl h1
        · refine Or.inr (Or.inl ?_)
          dsimp only
          rw [assocFind_upsert_ne _ _ hkk]
          exact h2
        · refine Or.inr (Or.inr ?_)
          dsimp only
          rw [assocFind_upsert_ne _ _ hkk]
          exact h3

theorem validPairs_batchLookup_target (keys : List String)
    (st : EmbeddingStore) (k0 : String)
    (hk0 : k0 = "" ∨ assocFind k0 st.table = none) :
    assocFind k0 (validPairs keys (st.batchLookup keys)) = none := by
  induction keys with
  | nil => rfl
  | cons k ks ih =>
    unfold EmbeddingStore.batchLookup at ih ⊢
    rw [List.map_cons]
    by_cases hkk : k = k0
    · subst hkk
      have hinr : ∃ e, st.lookupOne k = Sum.inr e := by
        unfold EmbeddingStore.lookupOne
        rcases hk0 with h1 | h2
        · rw [if_pos h1]
          exact ⟨_, rfl⟩
        · rw [h2]
          by_cases hke : k = ""
          · rw [if_pos hke]; exact ⟨_, rfl⟩
          · rw [if_neg hke]; exact ⟨_, rfl⟩
      obtain ⟨e, he⟩ := hinr
      rw [he, validPairs_cons_inr]
      exact ih
    · cases hl : st.lookupOne k with
      | inl v =>
        rw [validPairs_cons_inl, assocFind, if_neg hkk]
        exact ih
      | inr e =>
        rw [validPairs_cons_inr]
        exact ih

theorem validPairs_batchLWU_values (keys : List String) (st : EmbeddingStore)
    (hwf : st.wf) :
    ∀ kv ∈ validPairs keys (st.batchLookupWithUpdate keys).1,
      (kv.2 : Vec).length = st.dim := by
  induction keys generalizing st with
  | nil =>
    intro kv hkv
    simp [EmbeddingStore.batchLookupWithUpdate, validPairs] at hkv
  | cons k ks ih =>
    intro kv hkv
    unfold EmbeddingStore.batchLookupWithUpdate at hkv
    dsimp only at hkv
    obtain ⟨hdim, hcases⟩ := lookupWithUpdateOne_cases st k
    rcases hcases with ⟨hke, heq⟩ | ⟨v, hfv, heq⟩ | ⟨hfn, heq⟩
    · rw [heq] at hkv
      dsimp only at hkv
      rw [validPairs_cons_inr] at hkv
      exact ih st hwf kv hkv
    · rw [heq] at hkv
      dsimp only at hkv
      rw [validPairs_cons_inl] at hkv
      rcases List.mem_cons.mp hkv with h1 | h2
      · rw [h1]
        exact hwf (k, v) (assocFind_some_mem hfv)
      · exact ih st hwf kv h2
    · rw [heq] at hkv
      dsimp only at hkv
      rw [validPairs_cons_inl] at hkv
      rcases List.mem_cons.mp hkv with h1 | h2
      · rw [h1]
        exact zeroVec_length st.dim
      · have hwf' : ({ st with
            table := assocUpsert k (zeroVec st.dim) st.table }
              : EmbeddingStore).wf := by
          intro kv2 hkv2
          rcases mem_assocUpsert hkv2 with hh1 | hh2
          · rw [hh1]
            exact zeroVec_length st.dim
          · exact hwf kv2 hh2
        exact ih _ hwf' kv h2

theorem validPairs_batchLookup_values (keys : List String)
    (st : EmbeddingStore) (hwf : st.wf) :
    ∀ kv ∈ validPairs keys (st.batchLookup keys),
      (kv.2 : Vec).length = st.dim := by
  intro kv hkv
  have hl := validPairs_batchLookup_mem hkv
  unfold EmbeddingStore.lookupOne at hl
  by_cases hke : kv.1 = ""
  · rw [if_pos hke] at hl
    cases hl
  · rw [if_neg hke] at hl
    cases hf : assocFind kv.1 st.table with
    | some v =>
      rw [hf] at hl
      injection hl with hv
      rw [← hv]
      exact hwf (kv.1, v) (assocFind_some_mem hf)
    | none =>
      rw [hf] at hl
      cases hl

theorem lookupRows_length (table : List (String × Vec)) (d : Nat)
    (keys : List String)
    (hvals : ∀ kv ∈ table, (kv.2 : Vec).length = d) :
    ∀ r ∈ lookupRows table d keys, r.length = d := by
  intro r hr
  unfold lookupRows at hr
  rcases List.mem_map.mp hr with ⟨k, hk, hrk⟩
  cases hf : assocFind k table with
  | none =>
    rw [← hrk, hf]
    exact zeroVec_length d
  | some v =>
    rw [← hrk, hf]
    exact hvals (k, v) (assocFind_some_mem hf)

theorem flatten_slice {α : Type} (rows : List (List α)) (d : Nat)
    (hlen : ∀ r ∈ rows, r.length = d) (i : Nat) (hi : i < rows.length) :
    (rows.flatten.drop (i * d)).take d = rows.get ⟨i, hi⟩ := by
  induction rows generalizing i with
  | nil => cases hi
  | cons r rs ih =>
    have hr : r.length = d := hlen r (List.mem_cons_self r rs)
    cases i with
    | zero =>
      rw [List.flatten_cons]
      simp only [Nat.zero_mul, List.drop_zero]
      rw [← hr, List.take_left]
      rfl
    | succ j =>
      rw [List.flatten_cons]
      have harith : (j + 1) * d = r.length + j * d := by
        rw [hr]
        ring
      rw [harith, ← List.drop_drop, List.drop_left]
      exact ih (fun r2 hr2 => hlen r2 (List.mem_cons_of_mem r hr2)) j
        (Nat.lt_of_succ_lt_succ hi)

theorem batchUpdate_empty_key (keys : List String) (vals : List Vec)
    (st : EmbeddingStore) :
    assocFind "" (st.batchUpdate keys vals).table
      = assocFind "" st.table := by
  induction keys generalizing vals st with
  | nil => rfl
  | cons k ks ih =>
    cases vals with
    | nil => rfl
    | cons v vs =>
      unfold EmbeddingStore.batchUpdate
      rw [ih]
      unfold EmbeddingStore.updateOne
      by_cases hk : k = ""
      · rw [if_pos hk]
      · rw [if_neg hk]
        dsimp only
        exact assocFind_upsert_ne _ _ hk

theorem ensure_getStore_empty_key (s : KnowledgeBankService)
    (h : StartSessionRequest) :
    assocFind "" (((s.startSessionIfNecessary h).1).getStore h).table
      = assocFind "" ((s.getStore h).table) := by
  unfold KnowledgeBankService.startSessionIfNecessary
  by_cases hc : s.containsES h = true
  · rw [if_pos hc]
    unfold KnowledgeBankService.getStore
    rw [ensureOptimizer_es_map]
  · rw [if_neg hc]
    cases hm : KnowledgeBankFactory.make h.config.knowledge_bank_config
        h.config.embedding_dimension with
    | none => rfl
    | some kb =>
      dsimp only
      have hkb : kb.table = [] := by
        unfold KnowledgeBankFactory.make at hm
        split at hm
        · injection hm with hk
          rw [← hk]
        · cases hm
      have hfind : assocFind h s.es_map = none := by
        unfold KnowledgeBankService.containsES at hc
        cases hf : assocFind h s.es_map with
        | none => rfl
        | some v => rw [hf] at hc; simp at hc
      unfold KnowledgeBankService.getStore
      rw [ensureOptimizer_es_map]
      dsimp only
      rw [assocFind_upsert_self, hfind]
      dsimp only [Option.getD]
      rw [hkb]

theorem update_empty_key (s : KnowledgeBankService) (req : UpdateRequest)
    (hg : req.gradients = []) :
    assocFind "" (((s.update req).1).getStore req.session_handle).table
      = assocFind "" ((s.getStore req.session_handle).table) := by
  unfold KnowledgeBankService.update
  by_cases hemp : req.session_handle.isEmptyHandle = true
  · rw [if_pos hemp]
  · rw [if_neg hemp]
    by_cases hboth : req.values = [] ∧ req.gradients = []
    · rw [if_pos hboth]
    · rw [if_neg hboth]
      dsimp only
      by_cases hok : (s.startSessionIfNecessary req.session_handle).2.code
          ≠ StatusCode.ok
      · rw [if_pos hok]
        exact ensure_getStore_empty_key s req.session_handle
      · rw [if_neg hok, if_pos hg]
        by_cases hv : req.values = []
        · rw [if_pos hv]
          exact ensure_getStore_empty_key s req.session_handle
        · rw [if_neg hv]
          dsimp only
          rw [setStore_getStore, batchUpdate_empty_key]
          exact ensure_getStore_empty_key s req.session_handle

theorem managerUpdateValues_empty_key {m m' : DynamicEmbeddingManager}
    {keys : StrTensor} {values : NumTensor}
    (hupd : m.updateValues keys values = Except.ok m') :
    assocFind "" (m'.service.getStore m'.session_handle).table
      = assocFind "" (m.service.getStore m.session_handle).table := by
  obtain ⟨pairs, hshape⟩ := updateValues_ok_shape hupd
  rw [hshape]
  dsimp only
  exact update_empty_key m.service _ rfl

theorem service_lookup_false_eval {s : KnowledgeBankService}
    {h : StartSessionRequest} (keys : List String)
    (hemp : h.isEmptyHandle = false) (hk : keys ≠ [])
    (hens : s.startSessionIfNecessary h = (s, statusOK)) :
    s.lookup ⟨h, keys, false⟩ =
      (s, statusOK, validPairs keys ((s.getStore h).batchLookup keys)) := by
  unfold KnowledgeBankService.lookup
  rw [if_neg (by simp [hemp]), if_neg hk]
  dsimp only
  rw [hens]
  rw [if_neg (show ¬ ((s, statusOK).2.code ≠ StatusCode.ok) from
    fun hcc => hcc rfl)]
  rw [if_neg (by simp)]
  unfold lookupAssemble
  rw [if_neg (by simp [EmbeddingStore.batchLookup])]

theorem service_lookup_true_eval {s : KnowledgeBankService}
    {h : StartSessionRequest} (keys : List String)
    (hemp : h.isEmptyHandle = false) (hk : keys ≠ [])
    (hens : s.startSessionIfNecessary h = (s, statusOK)) :
    s.lookup ⟨h, keys, true⟩ =
      (s.setStore h ((s.getStore h).batchLookupWithUpdate keys).2, statusOK,
        validPairs keys ((s.getStore h).batchLookupWithUpdate keys).1) := by
  unfold KnowledgeBankService.lookup
  rw [if_neg (by simp [hemp]), if_neg hk]
  dsimp only
  rw [hens]
  rw [if_neg (show ¬ ((s, statusOK).2.code ≠ StatusCode.ok) from
    fun hcc => hcc rfl)]
  rw [if_pos rfl]
  unfold lookupAssemble
  rw [if_neg (by simp [batchLWU_length])]

/-- C7: a batch containing the empty-string padding key never writes a value
for it (the store binding of the empty key is untouched by a successful
UpdateValues, whatever the batch), and any Lookup of a non-degenerate batch
succeeds and returns the all-zero vector of the configured dimension at
every empty-string position as well as at every position whose key was
never written; neither situation fails the call. -/
theorem C7_empty_key_padding :
    (∀ (m m' : DynamicEmbeddingManager) (keys : StrTensor)
        (values : NumTensor),
      m.updateValues keys values = Except.ok m' →
      assocFind "" (m'.service.getStore m'.session_handle).table
        = assocFind "" (m.service.getStore m.session_handle).table) ∧
    (∀ (m : DynamicEmbeddingManager) (keys : StrTensor) (upd : Bool),
      numElements keys.shape ≠ 0 →
      m.session_handle.isEmptyHandle = false →
      keys.data ≠ [] →
      m.service.startSessionIfNecessary m.session_handle
        = (m.service, statusOK) →
      (m.service.getStore m.session_handle).wf →
      (m.service.getStore m.session_handle).dim
        = m.config.embedding_dimension →
      ∃ (m' : DynamicEmbeddingManager) (out : NumTensor),
        m.lookup keys upd = Except.ok (m', out) ∧
        out.shape = keys.shape ++ [m.config.embedding_dimension] ∧
        ∀ (i : Nat) (h1 : i < keys.data.length),
          (keys.data.get ⟨i, h1⟩ = "" ∨
            assocFind (keys.data.get ⟨i, h1⟩)
              (m.service.getStore m.session_handle).table = none) →
          (out.data.drop (i * m.config.embedding_dimension)).take
              m.config.embedding_dimension
            = zeroVec m.config.embedding_dimension) := by
  constructor
  · intro m m' keys values hupd
    exact managerUpdateValues_empty_key hupd
  · intro m keys upd h0 hemp hdata hens hwf hdim
    cases upd with
    | false =>
      have hsvc := service_lookup_false_eval keys.data hemp hdata hens
      have heval : m.lookup keys false = Except.ok
          ({ m with service := m.service },
            ⟨keys.shape ++ [m.config.embedding_dimension],
              (lookupRows
                (validPairs keys.data
                  ((m.service.getStore m.session_handle).batchLookup
                    keys.data))
                m.config.embedding_dimension keys.data).flatten⟩) := by
        unfold DynamicEmbeddingManager.lookup
        rw [if_neg h0]
        dsimp only
        rw [hsvc]
        rfl
      refine ⟨_, _, heval, rfl, ?_⟩
      intro i h1 hk0
      have hvals := validPairs_batchLookup_values keys.data
        (m.service.getStore m.session_handle) hwf
      have hrows := lookupRows_length
        (validPairs keys.data
          ((m.service.getStore m.session_handle).batchLookup keys.data))
        m.config.embedding_dimension keys.data
        (fun kv hkv => by rw [← hdim]; exact hvals kv hkv)
      have hi' : i < (lookupRows
          (validPairs keys.data
            ((m.service.getStore m.session_handle).batchLookup keys.data))
          m.config.embedding_dimension keys.data).length := by
        unfold lookupRows
        rw [List.length_map]
        exact h1
      have hslice := flatten_slice _ m.config.embedding_dimension hrows i hi'
      dsimp only
      rw [hslice]
      unfold lookupRows
      rw [List.get_map]
      rw [validPairs_batchLookup_target keys.data
        (m.service.getStore m.session_handle) _ hk0]
      rfl
    | true =>
      have hsvc := service_lookup_true_eval keys.data hemp hdata hens
      have heval : m.lookup keys true = Except.ok
          ({ m with
              service :=
                m.service.setStore m.session_handle
                  ((m.service.getStore
                    m.session_handle).batchLookupWithUpdate keys.data).2 },
            ⟨keys.shape ++ [m.config.embedding_dimension],
              (lookupRows
                (validPairs keys.data
                  ((m.service.getStore
                    m.session_handle).batchLookupWithUpdate keys.data).1)
                m.config.embedding_dimension keys.data).flatten⟩) := by
        unfold DynamicEmbeddingManager.lookup
        rw [if_neg h0]
        dsimp only
        rw [hsvc]
        rfl
      refine ⟨_, _, heval, rfl, ?_⟩
      intro i h1 hk0
      have hvals := validPairs_batchLWU_values keys.data
        (m.service.getStore m.session_handle) hwf
      have hrows := lookupRows_length
        (validPairs keys.data
          ((m.service.getStore m.session_handle).batchLookupWithUpdate
            keys.data).1)
        m.config.embedding_dimension keys.data
        (fun kv hkv => by rw [← hdim]; exact hvals kv hkv)
      have hi' : i < (lookupRows
          (validPairs keys.data
            ((m.service.getStore m.session_handle).batchLookupWithUpdate
              keys.data).1)
          m.config.embedding_dimension keys.data).length := by
        unfold lookupRows
        rw [List.length_map]
        exact h1
      have hslice := flatten_slice _ m.config.embedding_dimension hrows i hi'
      dsimp only
      rw [hslice]
      unfold lookupRows
      rw [List.get_map]
      have htarget := validPairs_batchLWU_target keys.data
        (m.service.getStore m.session_handle) (keys.data.get ⟨i, h1⟩)
        m.config.embedding_dimension hdim
        (by rcases hk0 with hh1 | hh2
            · exact Or.inl hh1
            · exact Or.inr (Or.inl hh2))
      rcases htarget with ht1 | ht2
      · rw [ht1]
        rfl
      · rw [ht2]
        rfl

/-- The 2 by 2 key batch of the padding test, with the empty padding key in
the last cell. -/
def c7Keys : StrTensor := ⟨[2, 2], ["first", "second", "third", ""]⟩

/-- The 2 by 2 by 2 values batch of the padding test. -/
def c7Vals : NumTensor := ⟨[2, 2, 2], [0, 1, 2, 3, 4, 5, 6, 7]⟩

/-- The manager state after writing c7Vals under c7Keys: the three real keys
hold their rows and the padding key was never written. -/
def c7Updated : DynamicEmbeddingManager :=
  ⟨sgdConfig, "emb",
    ⟨[(sgdRequest,
      ⟨2, [("first", [0, 1]), ("second", [2, 3]), ("third", [4, 5])]⟩)],
      [(sgdRequest, ⟨2, mkRat 1 10⟩)]⟩,
    sgdRequest⟩

/-- Witness for C7 at the inputs of the repository test: the 2 by 2 batch
with a padding key never writes the empty key, and the lookup of that batch
succeeds with zeros at the padding position. -/
theorem C7_empty_key_padding_witness :
    (assocFind "" (c7Updated.service.getStore c7Updated.session_handle).table
      = assocFind ""
        (c6Manager.service.getStore c6Manager.session_handle).table) ∧
    (∃ (m' : DynamicEmbeddingManager) (out : NumTensor),
      c7Updated.lookup c7Keys false = Except.ok (m', out) ∧
      out.shape = c7Keys.shape ++ [c7Updated.config.embedding_dimension] ∧
      ∀ (i : Nat) (h1 : i < c7Keys.data.length),
        (c7Keys.data.get ⟨i, h1⟩ = "" ∨
          assocFind (c7Keys.data.get ⟨i, h1⟩)
            (c7Updated.service.getStore c7Updated.session_handle).table
              = none) →
        (out.data.drop (i * c7Updated.config.embedding_dimension)).take
            c7Updated.config.embedding_dimension
          = zeroVec c7Updated.config.embedding_dimension) := by
  constructor
  · exact C7_empty_key_padding.1 c6Manager c7Updated c7Keys c7Vals (by decide)
  · exact C7_empty_key_padding.2 c7Updated c7Keys false (by decide) (by decide)
      (by decide) (by decide) (by unfold EmbeddingStore.wf; decide) (by decide)

end Carls
